import Mathlib

/-!
Verification development for the AmzGen repository (an e-commerce product
scene generator).  The definitions below are shallow embeddings of the
TypeScript source files `src/services/llm/openrouter.ts`,
`src/services/llm/factory.ts` (service factory and the `App` component's
`handleGenerate` orchestration loop) and `src/types.ts`.  Strings are
modelled by Lean `String` / `List Char`; JavaScript `undefined`/`null`
values by `Option`; thrown exceptions by `Except`; outbound network calls
by oracle functions together with an explicit call trace.
-/

namespace AmzGen

/-! ## Basic string machinery (List Char level) -/

/-- Decidable prefix test on character lists (JS `String.prototype.startsWith`
and the prefix step of `String.prototype.split` matching). -/
def isPre : List Char → List Char → Bool
  | [], _ => true
  | _ :: _, [] => false
  | a :: as, b :: bs => if a = b then isPre as bs else false

/-- Decidable substring test (JS `String.prototype.includes`). -/
def containsSub (needle : List Char) : List Char → Bool
  | [] => decide (needle = [])
  | c :: rest => isPre needle (c :: rest) || containsSub needle rest

/-- Replace every non-overlapping leftmost occurrence of the non-empty
pattern `p :: ps` by `val`, scanning left to right.  This is exactly the
behaviour of JS `s.split(pat).join(val)` for a non-empty `pat`
(`openrouter.ts` line 76).  A fuel argument keeps the recursion structural;
`replaceAllCore` instantiates the fuel with the list length, which always
suffices. -/
def replaceAllGo (p : Char) (ps val : List Char) : Nat → List Char → List Char
  | _, [] => []
  | 0, s => s
  | fuel + 1, c :: rest =>
    if isPre (p :: ps) (c :: rest) then
      val ++ replaceAllGo p ps val fuel (rest.drop ps.length)
    else
      c :: replaceAllGo p ps val fuel rest

def replaceAllCore (p : Char) (ps val s : List Char) : List Char :=
  replaceAllGo p ps val s.length s

/-- JS `s.split(pat).join(val)`.  For the empty pattern, JS `split("")`
splits into single characters, so `join` interleaves `val` between them. -/
def replaceAll (pat val s : List Char) : List Char :=
  match pat with
  | [] => List.intercalate val (s.map (fun c => [c]))
  | p :: ps => replaceAllCore p ps val s

/-- The literal marker `{{key}}` used by the template engine. -/
def marker (k : List Char) : List Char :=
  '\x7b' :: '\x7b' :: (k ++ ['\x7d', '\x7d'])

/-- `OpenRouterService.processTemplate` (`openrouter.ts` lines 72-79): fold
over the variable entries (in `Object.entries` order), replacing every
occurrence of `{{key}}` by the value via split/join. -/
def processTemplate (template : String) (vars : List (String × String)) : String :=
  String.mk (vars.foldl
    (fun result kv => replaceAll (marker kv.1.data) kv.2.data result) template.data)

/-! ### Fuel irrelevance and unfolding equations for `replaceAllCore` -/

theorem replaceAllGo_congr (p : Char) (ps val : List Char) :
    ∀ f1 f2 s, s.length ≤ f1 → s.length ≤ f2 →
      replaceAllGo p ps val f1 s = replaceAllGo p ps val f2 s := by
  intro f1
  induction f1 with
  | zero =>
    intro f2 s h1 _
    have hs : s = [] := List.eq_nil_of_length_eq_zero (Nat.le_zero.mp h1)
    subst hs
    cases f2 <;> rfl
  | succ f1 ih =>
    intro f2 s h1 h2
    cases s with
    | nil => cases f2 <;> rfl
    | cons c rest =>
      cases f2 with
      | zero => exact absurd h2 (by simp)
      | succ f2 =>
        simp only [replaceAllGo]
        by_cases hp : isPre (p :: ps) (c :: rest) = true
        · simp only [hp, if_true]
          have hlen : (rest.drop ps.length).length ≤ f1 := by
            have := List.length_drop ps.length rest
            simp only [List.length_cons] at h1
            omega
          have hlen2 : (rest.drop ps.length).length ≤ f2 := by
            have := List.length_drop ps.length rest
            simp only [List.length_cons] at h2
            omega
          rw [ih f2 _ hlen hlen2]
        · simp only [hp, if_false, Bool.false_eq_true]
          have hlen : rest.length ≤ f1 := by
            simp only [List.length_cons] at h1; omega
          have hlen2 : rest.length ≤ f2 := by
            simp only [List.length_cons] at h2; omega
          rw [ih f2 _ hlen hlen2]

theorem replaceAllCore_nil (p : Char) (ps val : List Char) :
    replaceAllCore p ps val [] = [] := rfl

theorem replaceAllCore_pos (p : Char) (ps val : List Char) (c : Char) (rest : List Char)
    (h : isPre (p :: ps) (c :: rest) = true) :
    replaceAllCore p ps val (c :: rest) =
      val ++ replaceAllCore p ps val (rest.drop ps.length) := by
  unfold replaceAllCore
  simp only [List.length_cons, replaceAllGo, h, if_true]
  exact congrArg (val ++ ·) (replaceAllGo_congr p ps val rest.length
    (rest.drop ps.length).length (rest.drop ps.length)
    (by simp [List.length_drop]) (Nat.le_refl _))

theorem replaceAllCore_neg (p : Char) (ps val : List Char) (c : Char) (rest : List Char)
    (h : isPre (p :: ps) (c :: rest) = false) :
    replaceAllCore p ps val (c :: rest) = c :: replaceAllCore p ps val rest := by
  unfold replaceAllCore
  simp only [List.length_cons, replaceAllGo, h, Bool.false_eq_true, if_false]

/-- If the pattern occurs nowhere in `s`, split/join leaves `s` unchanged. -/
theorem replaceAllCore_of_not_contains (p : Char) (ps val : List Char) :
    ∀ s, containsSub (p :: ps) s = false → replaceAllCore p ps val s = s := by
  intro s
  induction s with
  | nil => intro _; rfl
  | cons c rest ih =>
    intro h
    simp only [containsSub, Bool.or_eq_false_iff] at h
    rw [replaceAllCore_neg p ps val c rest h.1, ih h.2]

/-- A string already free of every marker of `V` is a fixed point of the
template fold. -/
theorem foldl_replace_of_not_contains (V : List (String × String)) :
    ∀ L, (∀ kv ∈ V, containsSub (marker kv.1.data) L = false) →
      V.foldl (fun result kv => replaceAll (marker kv.1.data) kv.2.data result) L = L := by
  induction V with
  | nil => intro L _; rfl
  | cons kv rest ih =>
    intro L h
    have h1 : containsSub (marker kv.1.data) L = false := h kv (List.mem_cons_self kv rest)
    have hstep : replaceAll (marker kv.1.data) kv.2.data L = L := by
      simp only [replaceAll, marker]
      exact replaceAllCore_of_not_contains _ _ _ L h1
    simp only [List.foldl_cons, hstep]
    exact ih L (fun kv' h' => h kv' (List.mem_cons_of_mem kv h'))

/-- C8 The template engine is idempotent once no marker of any key of `V`
remains in the result: applying `processTemplate` again with the same
variable map is the identity. -/
theorem C8_fill_idempotent (T : String) (V : List (String × String))
    (h : ∀ kv ∈ V, containsSub (marker kv.1.data) (processTemplate T V).data = false) :
    processTemplate (processTemplate T V) V = processTemplate T V := by
  unfold processTemplate at *
  exact congrArg String.mk (foldl_replace_of_not_contains V _ h)

/-- Witness for C8 at a concrete input: one marker, one variable. -/
theorem C8_fill_idempotent_witness :
    processTemplate (processTemplate (String.mk (marker "a".data)) [("a", "x")]) [("a", "x")]
      = processTemplate (String.mk (marker "a".data)) [("a", "x")] :=
  C8_fill_idempotent (String.mk (marker "a".data)) [("a", "x")] (by decide)

/-! ### Well-formed templates: alternations of brace-free literals and markers.

The universal template-fill claim fails for templates or values that
themselves contain brace material (see the counterexample below); the
amended claim restricts to templates rendered from brace-free segments. -/

inductive Seg
  | lit (l : List Char)
  | hole (k : List Char)
deriving DecidableEq

def renderSegs : List Seg → List Char
  | [] => []
  | .lit l :: rest => l ++ renderSegs rest
  | .hole k :: rest => marker k ++ renderSegs rest

def braceFree (l : List Char) : Bool :=
  l.all (fun c => decide (c ≠ '\x7b') && decide (c ≠ '\x7d'))

def goodSeg : Seg → Bool
  | .lit l => braceFree l
  | .hole k => braceFree k && decide (k ≠ [])

/-- Substituting one variable in the segment view: each hole for key `k`
becomes the literal value `v`. -/
def substKey (k v : List Char) : Seg → Seg
  | .lit l => .lit l
  | .hole j => if j = k then .lit v else .hole j

def segsFold (V : List (List Char × List Char)) (segs : List Seg) : List Seg :=
  V.foldl (fun ss kv => ss.map (substKey kv.1 kv.2)) segs

def markerTail (k : List Char) : List Char := '\x7b' :: (k ++ ['\x7d', '\x7d'])

/-- The `List Char` level of `processTemplate`. -/
def fillL (L : List Char) (V : List (List Char × List Char)) : List Char :=
  V.foldl (fun result kv => replaceAll (marker kv.1) kv.2 result) L

theorem processTemplate_data (T : String) (V : List (String × String)) :
    (processTemplate T V).data = fillL T.data (V.map (fun kv => (kv.1.data, kv.2.data))) := by
  simp only [processTemplate, fillL, List.foldl_map]

theorem replaceAll_marker (k v s : List Char) :
    replaceAll (marker k) v s = replaceAllCore '\x7b' (markerTail k) v s := rfl

theorem braceFree_mem {l : List Char} (h : braceFree l = true) {c : Char} (hc : c ∈ l) :
    c ≠ '\x7b' ∧ c ≠ '\x7d' := by
  simp only [braceFree, List.all_eq_true, Bool.and_eq_true, decide_eq_true_eq] at h
  exact h c hc

theorem isPre_append_self (l s : List Char) : isPre l (l ++ s) = true := by
  induction l with
  | nil => rfl
  | cons a as ih => simp [isPre, ih]

/-- Walking a brace-free literal: no occurrence of a pattern starting with
an opening brace can begin inside it. -/
theorem replaceAllCore_braceFree_append (ps val : List Char) :
    ∀ l s, (∀ c ∈ l, c ≠ '\x7b') →
      replaceAllCore '\x7b' ps val (l ++ s) = l ++ replaceAllCore '\x7b' ps val s := by
  intro l
  induction l with
  | nil => intro s _; rfl
  | cons c rest ih =>
    intro s h
    have hc : c ≠ '\x7b' := h c (List.mem_cons_self c rest)
    have hpre : isPre ('\x7b' :: ps) (c :: (rest ++ s)) = false := by
      simp only [isPre]
      rw [if_neg (fun hh => hc hh.symm)]
    rw [List.cons_append, replaceAllCore_neg _ _ _ _ _ hpre,
      ih s (fun c' h' => h c' (List.mem_cons_of_mem c h'))]
    rfl

/-- Key-mismatch: the tail of one marker is never a prefix of the tail of a
different marker followed by anything, when both keys are brace-free. -/
theorem isPre_keyTail_false :
    ∀ k j s, braceFree k = true → braceFree j = true → k ≠ j →
      isPre (k ++ ['\x7d', '\x7d']) (j ++ '\x7d' :: '\x7d' :: s) = false := by
  intro k
  induction k with
  | nil =>
    intro j s _ hj hne
    cases j with
    | nil => exact absurd rfl hne
    | cons c j' =>
      have hc := (braceFree_mem hj (List.mem_cons_self c j')).2
      simp only [List.nil_append, List.cons_append, isPre]
      rw [if_neg (fun hh => hc hh.symm)]
  | cons a k' ih =>
    intro j s hk hj hne
    have ha := braceFree_mem hk (List.mem_cons_self a k')
    have hk' : braceFree k' = true := by
      simp only [braceFree, List.all_eq_true] at hk ⊢
      exact fun c hc => hk c (List.mem_cons_of_mem a hc)
    cases j with
    | nil => simp [isPre, ha.2]
    | cons c j' =>
      have hj' : braceFree j' = true := by
        simp only [braceFree, List.all_eq_true] at hj ⊢
        exact fun d hd => hj d (List.mem_cons_of_mem c hd)
      by_cases hac : a = c
      · subst hac
        have hne' : k' ≠ j' := fun hh => hne (by rw [hh])
        simp [isPre, ih j' s hk' hj' hne']
      · simp [isPre, hac]

/-- A marker for key `k` is not a prefix of a marker for a different key
`j` (followed by anything). -/
theorem isPre_marker_marker_false (k j s : List Char)
    (hk : braceFree k = true) (hj : braceFree j = true) (hne : k ≠ j) :
    isPre (marker k) (marker j ++ s) = false := by
  have : marker j ++ s = '\x7b' :: '\x7b' :: (j ++ '\x7d' :: '\x7d' :: s) := by
    simp [marker]
  rw [this]
  simp [marker, isPre, isPre_keyTail_false k j s hk hj hne]

/-- Walking a whole marker with a different key. -/
theorem replaceAllCore_marker_ne (k j v s : List Char)
    (hk : braceFree k = true) (hj : braceFree j = true) (hjne : j ≠ []) (hne : k ≠ j) :
    replaceAllCore '\x7b' (markerTail k) v (marker j ++ s) =
      marker j ++ replaceAllCore '\x7b' (markerTail k) v s := by
  have heq : marker j ++ s = '\x7b' :: '\x7b' :: (j ++ '\x7d' :: '\x7d' :: s) := by
    simp [marker]
  rw [heq]
  have h0 : isPre ('\x7b' :: markerTail k) ('\x7b' :: '\x7b' :: (j ++ '\x7d' :: '\x7d' :: s)) = false := by
    have := isPre_marker_marker_false k j s hk hj hne
    rw [heq] at this
    exact this
  rw [replaceAllCore_neg _ _ _ _ _ h0]
  have h1 : isPre ('\x7b' :: markerTail k) ('\x7b' :: (j ++ '\x7d' :: '\x7d' :: s)) = false := by
    cases j with
    | nil => exact absurd rfl hjne
    | cons d j' =>
      have hd := (braceFree_mem hj (List.mem_cons_self d j')).1
      simp only [List.cons_append, markerTail, isPre]
      rw [if_pos trivial, if_neg (fun hh => hd hh.symm)]
  rw [replaceAllCore_neg _ _ _ _ _ h1]
  have hjwalk : ∀ c ∈ j, c ≠ '\x7b' := fun c hc => (braceFree_mem hj hc).1
  rw [replaceAllCore_braceFree_append _ _ j ('\x7d' :: '\x7d' :: s) hjwalk]
  have h2 : isPre ('\x7b' :: markerTail k) ('\x7d' :: '\x7d' :: s) = false := by
    simp [isPre]
  rw [replaceAllCore_neg _ _ _ _ _ h2]
  have h3 : isPre ('\x7b' :: markerTail k) ('\x7d' :: s) = false := by
    simp [isPre]
  rw [replaceAllCore_neg _ _ _ _ _ h3]
  simp [marker]

/-- Consuming a matching marker: the occurrence is replaced by the value and
scanning resumes after it. -/
theorem replaceAllCore_marker_eq (k v s : List Char) :
    replaceAllCore '\x7b' (markerTail k) v (marker k ++ s) =
      v ++ replaceAllCore '\x7b' (markerTail k) v s := by
  have heq : marker k ++ s = '\x7b' :: (markerTail k ++ s) := by
    simp [marker, markerTail]
  rw [heq]
  have hpre : isPre ('\x7b' :: markerTail k) ('\x7b' :: (markerTail k ++ s)) = true := by
    have := isPre_append_self ('\x7b' :: markerTail k) s
    simpa using this
  rw [replaceAllCore_pos _ _ _ _ _ hpre, List.drop_left]

/-- One split/join pass over a well-formed template substitutes exactly the
holes carrying that key. -/
theorem replaceAll_renderSegs (k v : List Char)
    (hk : braceFree k = true) (hknil : k ≠ []) :
    ∀ segs, (∀ sg ∈ segs, goodSeg sg = true) →
      replaceAll (marker k) v (renderSegs segs) = renderSegs (segs.map (substKey k v)) := by
  intro segs
  induction segs with
  | nil => intro _; rfl
  | cons sg rest ih =>
    intro h
    have hrest := fun sg' h' => h sg' (List.mem_cons_of_mem sg h')
    have hsg := h sg (List.mem_cons_self sg rest)
    cases sg with
    | lit l =>
      have hl : ∀ c ∈ l, c ≠ '\x7b' := fun c hc => (braceFree_mem hsg hc).1
      rw [replaceAll_marker] at ih ⊢
      simp only [renderSegs, List.map_cons, substKey]
      rw [replaceAllCore_braceFree_append _ _ l _ hl, ih hrest]
    | hole j =>
      simp only [goodSeg, Bool.and_eq_true, decide_eq_true_eq] at hsg
      rw [replaceAll_marker] at ih ⊢
      simp only [renderSegs, List.map_cons, substKey]
      by_cases hjk : j = k
      · subst hjk
        simp only [if_pos rfl, renderSegs]
        rw [replaceAllCore_marker_eq, ih hrest]
      · simp only [if_neg hjk, renderSegs]
        rw [replaceAllCore_marker_ne k j v _ hk hsg.1 hsg.2 (fun hh => hjk hh.symm), ih hrest]

/-! ### Marker occurrences in well-formed templates -/

/-- Occurrences of a pattern opening with a brace skip over a literal that
contains no opening brace. -/
theorem containsSub_braceFree_append (t : List Char) :
    ∀ l R, (∀ c ∈ l, c ≠ '\x7b') →
      containsSub ('\x7b' :: t) (l ++ R) = containsSub ('\x7b' :: t) R := by
  intro l
  induction l with
  | nil => intro R _; rfl
  | cons c rest ih =>
    intro R h
    have hc : c ≠ '\x7b' := h c (List.mem_cons_self c rest)
    have hpre : isPre ('\x7b' :: t) (c :: (rest ++ R)) = false := by
      simp only [isPre]
      rw [if_neg (fun hh => hc hh.symm)]
    show containsSub ('\x7b' :: t) (c :: (rest ++ R)) = containsSub ('\x7b' :: t) R
    have hstep : containsSub ('\x7b' :: t) (c :: (rest ++ R)) =
        (isPre ('\x7b' :: t) (c :: (rest ++ R)) || containsSub ('\x7b' :: t) (rest ++ R)) := rfl
    rw [hstep, hpre, Bool.false_or]
    exact ih R (fun c' h' => h c' (List.mem_cons_of_mem c h'))

theorem containsSub_of_isPre (n : List Char) :
    ∀ s, isPre n s = true → containsSub n s = true := by
  intro s h
  cases s with
  | nil =>
    cases n with
    | nil => rfl
    | cons a as => simp [isPre] at h
  | cons c rest => simp [containsSub, h]

/-- A marker for key `k` occurs in `marker j ++ R` exactly when `k = j` or
it occurs in `R`, for brace-free non-empty keys. -/
theorem containsSub_marker_cons (k j R : List Char)
    (hk : braceFree k = true) (_hknil : k ≠ [])
    (hj : braceFree j = true) (hjnil : j ≠ []) :
    containsSub (marker k) (marker j ++ R) =
      (decide (k = j) || containsSub (marker k) R) := by
  by_cases hkj : k = j
  · subst hkj
    have h1 : containsSub (marker k) (marker k ++ R) = true :=
      containsSub_of_isPre _ _ (isPre_append_self _ _)
    rw [h1]
    simp
  · have h0 : isPre (marker k) (marker j ++ R) = false :=
      isPre_marker_marker_false k j R hk hj hkj
    have heq : marker j ++ R = '\x7b' :: '\x7b' :: (j ++ '\x7d' :: '\x7d' :: R) := by
      simp [marker]
    rw [heq] at h0
    have h1 : isPre (marker k) ('\x7b' :: (j ++ '\x7d' :: '\x7d' :: R)) = false := by
      cases j with
      | nil => exact absurd rfl hjnil
      | cons d j' =>
        have hd := (braceFree_mem hj (List.mem_cons_self d j')).1
        simp only [List.cons_append, marker, isPre]
        all_goals rw [if_pos trivial, if_neg (fun hh => hd hh.symm)]
    have hjwalk : ∀ c ∈ j, c ≠ '\x7b' := fun c hc => (braceFree_mem hj hc).1
    have h2 : isPre (marker k) ('\x7d' :: '\x7d' :: R) = false := by
      simp [marker, isPre]
    have h3 : isPre (marker k) ('\x7d' :: R) = false := by
      simp [marker, isPre]
    calc containsSub (marker k) (marker j ++ R)
        = containsSub (marker k) ('\x7b' :: '\x7b' :: (j ++ '\x7d' :: '\x7d' :: R)) := by rw [heq]
      _ = containsSub (marker k) (j ++ '\x7d' :: '\x7d' :: R) := by
          simp only [containsSub, h0, h1, Bool.false_or]
      _ = containsSub (marker k) ('\x7d' :: '\x7d' :: R) := by
          have := containsSub_braceFree_append ('\x7b' :: (k ++ ['\x7d', '\x7d'])) j
            ('\x7d' :: '\x7d' :: R) hjwalk
          simpa [marker] using this
      _ = containsSub (marker k) R := by
          simp only [containsSub, h2, h3, Bool.false_or]
      _ = (decide (k = j) || containsSub (marker k) R) := by
          simp [hkj]

/-- In a well-formed template, a brace-free non-empty key marker occurs iff
the template has a hole for that key. -/
theorem containsSub_renderSegs (k : List Char)
    (hk : braceFree k = true) (hknil : k ≠ []) :
    ∀ segs, (∀ sg ∈ segs, goodSeg sg = true) →
      containsSub (marker k) (renderSegs segs) =
        segs.any (fun sg => decide (sg = Seg.hole k)) := by
  intro segs
  induction segs with
  | nil => intro _; simp [renderSegs, containsSub, marker]
  | cons sg rest ih =>
    intro h
    have hrest := fun sg' h' => h sg' (List.mem_cons_of_mem sg h')
    have hsg := h sg (List.mem_cons_self sg rest)
    cases sg with
    | lit l =>
      have hl : ∀ c ∈ l, c ≠ '\x7b' := fun c hc => (braceFree_mem hsg hc).1
      have := containsSub_braceFree_append ('\x7b' :: (k ++ ['\x7d', '\x7d'])) l
        (renderSegs rest) hl
      simp only [renderSegs, List.any_cons]
      rw [show marker k = '\x7b' :: ('\x7b' :: (k ++ ['\x7d', '\x7d'])) from rfl] at ih ⊢
      rw [this, ih hrest]
      simp
    | hole j =>
      simp only [goodSeg, Bool.and_eq_true, decide_eq_true_eq] at hsg
      simp only [renderSegs, List.any_cons]
      rw [containsSub_marker_cons k j _ hk hknil hsg.1 hsg.2, ih hrest]
      by_cases hkj : k = j
      · subst hkj; simp
      · have hjk : (Seg.hole j : Seg) ≠ Seg.hole k := fun hh => hkj (Seg.hole.inj hh).symm
        rw [decide_eq_false hkj, decide_eq_false hjk]

/-! ### The substitution fold on segments -/

theorem substKey_good {sg : Seg} (h : goodSeg sg = true) {k v : List Char}
    (hv : braceFree v = true) : goodSeg (substKey k v sg) = true := by
  cases sg with
  | lit l => exact h
  | hole j =>
    simp only [substKey]
    by_cases hjk : j = k
    · simp [hjk, goodSeg, hv]
    · simp only [if_neg hjk]; exact h

theorem segsFold_good (V : List (List Char × List Char)) :
    ∀ segs, (∀ sg ∈ segs, goodSeg sg = true) → (∀ kv ∈ V, braceFree kv.2 = true) →
      ∀ sg ∈ segsFold V segs, goodSeg sg = true := by
  induction V with
  | nil => intro segs h _; exact h
  | cons kv rest ih =>
    intro segs h hV
    have hstep : ∀ sg ∈ segs.map (substKey kv.1 kv.2), goodSeg sg = true := by
      intro sg hsg
      obtain ⟨sg0, hsg0, rfl⟩ := List.mem_map.mp hsg
      exact substKey_good (h sg0 hsg0) (hV kv (List.mem_cons_self kv rest))
    exact ih _ hstep (fun kv' h' => hV kv' (List.mem_cons_of_mem kv h'))

/-- After substituting key `k`, no hole for `k` remains. -/
theorem hole_not_mem_map_substKey (k v : List Char) (segs : List Seg) :
    Seg.hole k ∉ segs.map (substKey k v) := by
  intro hmem
  obtain ⟨sg0, _, heq⟩ := List.mem_map.mp hmem
  cases sg0 with
  | lit l => exact Seg.noConfusion heq
  | hole j =>
    simp only [substKey] at heq
    by_cases hjk : j = k
    · rw [if_pos hjk] at heq; exact Seg.noConfusion heq
    · rw [if_neg hjk] at heq
      exact hjk (Seg.hole.inj heq)

/-- Substitution never creates holes. -/
theorem not_hole_mem_map (j k v : List Char) (segs : List Seg)
    (h : Seg.hole j ∉ segs) : Seg.hole j ∉ segs.map (substKey k v) := by
  intro hmem
  obtain ⟨sg0, hsg0, heq⟩ := List.mem_map.mp hmem
  cases sg0 with
  | lit l => exact Seg.noConfusion heq
  | hole i =>
    simp only [substKey] at heq
    by_cases hik : i = k
    · rw [if_pos hik] at heq; exact Seg.noConfusion heq
    · rw [if_neg hik] at heq
      rw [Seg.hole.inj heq] at hsg0
      exact h hsg0

theorem segsFold_preserves_not_hole (j : List Char) (V : List (List Char × List Char)) :
    ∀ segs, Seg.hole j ∉ segs → Seg.hole j ∉ segsFold V segs := by
  induction V with
  | nil => intro segs h; exact h
  | cons kv rest ih =>
    intro segs h
    exact ih _ (not_hole_mem_map j kv.1 kv.2 segs h)

/-- Every key of `V` has all its holes eliminated by the fold. -/
theorem segsFold_no_hole (V : List (List Char × List Char)) :
    ∀ segs kv, kv ∈ V → Seg.hole kv.1 ∉ segsFold V segs := by
  induction V with
  | nil => intro segs kv h; exact absurd h (List.not_mem_nil kv)
  | cons kv0 rest ih =>
    intro segs kv hmem
    rcases List.mem_cons.mp hmem with h | h
    · subst h
      exact segsFold_preserves_not_hole kv.1 rest _
        (hole_not_mem_map_substKey kv.1 kv.2 segs)
    · exact ih _ kv h

/-- Holes whose key is substituted by no entry of `V` survive the fold. -/
theorem segsFold_preserves_hole (j : List Char) (V : List (List Char × List Char)) :
    ∀ segs, Seg.hole j ∈ segs → (∀ kv ∈ V, kv.1 ≠ j) →
      Seg.hole j ∈ segsFold V segs := by
  induction V with
  | nil => intro segs h _; exact h
  | cons kv rest ih =>
    intro segs h hV
    have hne : j ≠ kv.1 := fun hh => hV kv (List.mem_cons_self kv rest) hh.symm
    have : Seg.hole j ∈ segs.map (substKey kv.1 kv.2) := by
      have := List.mem_map_of_mem (substKey kv.1 kv.2) h
      simpa [substKey, if_neg hne] using this
    exact ih _ this (fun kv' h' => hV kv' (List.mem_cons_of_mem kv h'))

/-- The fold at the string level equals the fold at the segment level. -/
theorem fillL_renderSegs (V : List (List Char × List Char)) :
    ∀ segs, (∀ sg ∈ segs, goodSeg sg = true) →
      (∀ kv ∈ V, braceFree kv.1 = true ∧ kv.1 ≠ [] ∧ braceFree kv.2 = true) →
      fillL (renderSegs segs) V = renderSegs (segsFold V segs) := by
  induction V with
  | nil => intro segs _ _; rfl
  | cons kv rest ih =>
    intro segs hsegs hV
    have hkv := hV kv (List.mem_cons_self kv rest)
    have hstep := replaceAll_renderSegs kv.1 kv.2 hkv.1 hkv.2.1 segs hsegs
    have hgood : ∀ sg ∈ segs.map (substKey kv.1 kv.2), goodSeg sg = true := by
      intro sg hsg
      obtain ⟨sg0, hsg0, rfl⟩ := List.mem_map.mp hsg
      exact substKey_good (hsegs sg0 hsg0) hkv.2.2
    simp only [fillL, List.foldl_cons, segsFold] at ih ⊢
    rw [hstep]
    exact ih _ hgood (fun kv' h' => hV kv' (List.mem_cons_of_mem kv h'))

/-- Substituting a key with no hole in the template is the identity. -/
theorem map_substKey_id (k v : List Char) :
    ∀ segs : List Seg, Seg.hole k ∉ segs → segs.map (substKey k v) = segs := by
  intro segs
  induction segs with
  | nil => intro _; rfl
  | cons sg rest ih =>
    intro h
    have h1 : sg ≠ Seg.hole k := fun hh => h (hh ▸ List.mem_cons_self sg rest)
    have h2 : Seg.hole k ∉ rest := fun hh => h (List.mem_cons_of_mem sg hh)
    simp only [List.map_cons, ih h2]
    congr 1
    cases sg with
    | lit l => rfl
    | hole j =>
      simp only [substKey]
      rw [if_neg (fun hh => h1 (by rw [hh]))]

/-- Entries of `V` whose key has no hole in the template have no effect on
the segment fold. -/
theorem segsFold_filter (p : List Char × List Char → Bool) :
    ∀ (V : List (List Char × List Char)) segs,
      (∀ kv ∈ V, p kv = false → Seg.hole kv.1 ∉ segs) →
      segsFold (V.filter p) segs = segsFold V segs := by
  intro V
  induction V with
  | nil => intro segs _; rfl
  | cons kv rest ih =>
    intro segs hinv
    by_cases hp : p kv = true
    · simp only [segsFold, List.filter_cons, hp, if_true, List.foldl_cons]
      apply ih
      intro kv' h' hfalse
      exact not_hole_mem_map _ _ _ _ (hinv kv' (List.mem_cons_of_mem kv h') hfalse)
    · have hp' : p kv = false := Bool.eq_false_iff.mpr hp
      have hid : segs.map (substKey kv.1 kv.2) = segs :=
        map_substKey_id kv.1 kv.2 segs (hinv kv (List.mem_cons_self kv rest) hp')
      simp only [segsFold, List.filter_cons, hp', List.foldl_cons, hid]
      simp only [Bool.false_eq_true, if_false]
      exact ih segs (fun kv' h' hf => hinv kv' (List.mem_cons_of_mem kv h') hf)

/-! ### Claim C4: the universal template-fill property -/

/-- The property asserted by claim C4, stated verbatim for a template `T`
and a variable map `V` (entries in `Object.entries` order): every marker of
a key of `V` occurring in `T` is gone from the output, keys whose marker
does not occur in `T` have no effect on the output, and markers with no
matching key still occur in the output. -/
def claimC4Prop (T : String) (V : List (String × String)) : Prop :=
  (∀ kv ∈ V, containsSub (marker kv.1.data) T.data = true →
    containsSub (marker kv.1.data) (processTemplate T V).data = false)
  ∧ processTemplate T (V.filter (fun kv => containsSub (marker kv.1.data) T.data)) =
      processTemplate T V
  ∧ (∀ j : String, (∀ kv ∈ V, kv.1 ≠ j) → containsSub (marker j.data) T.data = true →
      containsSub (marker j.data) (processTemplate T V).data = true)

/-- C4 is false as stated: (1) a value that itself contains the marker of
its own key reintroduces it (`fill("\x7b\x7ba\x7d\x7d", a ↦ "\x7b\x7ba\x7d\x7d")`
still contains the marker), and (2) even with a brace-free value, a
template with overlapping brace material can recreate a marker
(`fill("\x7b\x7bx\x7b\x7bxy\x7d\x7d\x7d\x7d", xy ↦ "y") = "\x7b\x7bxy\x7d\x7d"`). -/
theorem C4_counterexample :
    ¬ claimC4Prop (String.mk (marker ['a'])) [(String.mk ['a'], String.mk (marker ['a']))]
    ∧ ¬ claimC4Prop (String.mk ('\x7b' :: '\x7b' :: 'x' :: marker ['x', 'y'] ++ ['\x7d', '\x7d']))
        [(String.mk ['x', 'y'], String.mk ['y'])] := by
  constructor
  · intro h
    have h1 := h.1 (String.mk ['a'], String.mk (marker ['a'])) (by decide) (by decide)
    exact absurd h1 (by decide)
  · intro h
    have h1 := h.1 (String.mk ['x', 'y'], String.mk ['y']) (by decide) (by decide)
    exact absurd h1 (by decide)

/-- C4 amended: for a template that is an alternation of brace-free
literal segments and markers with brace-free non-empty keys, and a
variable map whose keys are brace-free and non-empty and whose values are
brace-free, `processTemplate` (i) is exactly hole substitution on the
segment view, (ii) leaves no marker of any key of `V` in the output,
(iii) entries whose marker does not occur in the template have no effect
on the output, and (iv) markers with no matching key still occur in the
output. -/
theorem C4_amended_fill (segs : List Seg) (V : List (String × String))
    (hsegs : ∀ sg ∈ segs, goodSeg sg = true)
    (hV : ∀ kv ∈ V, braceFree kv.1.data = true ∧ kv.1.data ≠ [] ∧ braceFree kv.2.data = true) :
    (processTemplate (String.mk (renderSegs segs)) V).data =
      renderSegs (segsFold (V.map (fun kv => (kv.1.data, kv.2.data))) segs)
    ∧ (∀ kv ∈ V, containsSub (marker kv.1.data)
        (processTemplate (String.mk (renderSegs segs)) V).data = false)
    ∧ processTemplate (String.mk (renderSegs segs))
        (V.filter (fun kv => containsSub (marker kv.1.data) (renderSegs segs))) =
      processTemplate (String.mk (renderSegs segs)) V
    ∧ (∀ j : List Char, braceFree j = true → j ≠ [] → (∀ kv ∈ V, kv.1.data ≠ j) →
        containsSub (marker j) (renderSegs segs) = true →
        containsSub (marker j) (processTemplate (String.mk (renderSegs segs)) V).data = true) := by
  set VL : List (List Char × List Char) := V.map (fun kv => (kv.1.data, kv.2.data)) with hVL
  have hVL' : ∀ kv ∈ VL, braceFree kv.1 = true ∧ kv.1 ≠ [] ∧ braceFree kv.2 = true := by
    intro kv hkv
    obtain ⟨kv0, hkv0, rfl⟩ := List.mem_map.mp hkv
    exact hV kv0 hkv0
  have hdata : (processTemplate (String.mk (renderSegs segs)) V).data =
      renderSegs (segsFold VL segs) := by
    rw [processTemplate_data, ← hVL]
    exact fillL_renderSegs VL segs hsegs hVL'
  have hfoldGood : ∀ sg ∈ segsFold VL segs, goodSeg sg = true :=
    segsFold_good VL segs hsegs (fun kv h => (hVL' kv h).2.2)
  refine ⟨hdata, ?_, ?_, ?_⟩
  · intro kv hkv
    have hkv' := hV kv hkv
    rw [hdata, containsSub_renderSegs kv.1.data hkv'.1 hkv'.2.1 _ hfoldGood]
    have hnot : Seg.hole kv.1.data ∉ segsFold VL segs :=
      segsFold_no_hole VL segs (kv.1.data, kv.2.data)
        (List.mem_map_of_mem (fun kv => (kv.1.data, kv.2.data)) hkv)
    by_contra hcon
    rw [Bool.not_eq_false, List.any_eq_true] at hcon
    obtain ⟨sg, hsg, hdec⟩ := hcon
    rw [decide_eq_true_eq] at hdec
    exact hnot (hdec ▸ hsg)
  · have hfilterMap : (V.filter (fun kv => containsSub (marker kv.1.data) (renderSegs segs))).map
        (fun kv => (kv.1.data, kv.2.data)) =
        VL.filter (fun kv => containsSub (marker kv.1) (renderSegs segs)) := by
      rw [hVL, List.filter_map]
      rfl
    have hVfilt : ∀ kv ∈ V.filter (fun kv => containsSub (marker kv.1.data) (renderSegs segs)),
        braceFree kv.1.data = true ∧ kv.1.data ≠ [] ∧ braceFree kv.2.data = true := by
      intro kv hkv
      exact hV kv (List.mem_of_mem_filter hkv)
    have hseg_eq : segsFold (VL.filter (fun kv => containsSub (marker kv.1) (renderSegs segs)))
        segs = segsFold VL segs := by
      apply segsFold_filter
      intro kv hkv hfalse
      have hkv' := hVL' kv hkv
      rw [containsSub_renderSegs kv.1 hkv'.1 hkv'.2.1 segs hsegs] at hfalse
      intro hmem
      have : segs.any (fun sg => decide (sg = Seg.hole kv.1)) = true := by
        rw [List.any_eq_true]
        exact ⟨Seg.hole kv.1, hmem, by simp⟩
      rw [this] at hfalse
      exact Bool.noConfusion hfalse
    apply String.ext
    rw [processTemplate_data, processTemplate_data, hfilterMap, ← hVL]
    rw [fillL_renderSegs _ segs hsegs (fun kv h => hVL' kv (List.mem_of_mem_filter h)),
      fillL_renderSegs VL segs hsegs hVL', hseg_eq]
  · intro j hj hjnil hjV hocc
    rw [hdata, containsSub_renderSegs j hj hjnil _ hfoldGood]
    rw [containsSub_renderSegs j hj hjnil segs hsegs, List.any_eq_true] at hocc
    obtain ⟨sg, hsg, hdec⟩ := hocc
    rw [decide_eq_true_eq] at hdec
    subst hdec
    have hjVL : ∀ kv ∈ VL, kv.1 ≠ j := by
      intro kv hkv
      obtain ⟨kv0, hkv0, rfl⟩ := List.mem_map.mp hkv
      exact hjV kv0 hkv0
    have := segsFold_preserves_hole j VL segs hsg hjVL
    rw [List.any_eq_true]
    exact ⟨Seg.hole j, this, by simp⟩

/-- Witness for the amended C4 at a concrete well-formed template with two
variables, one of which has no marker in the template. -/
theorem C4_amended_fill_witness :
    (processTemplate (String.mk (renderSegs [Seg.lit "hi ".data, Seg.hole ['a'], Seg.lit ['!']]))
      [("a", "x"), ("b", "y")]).data =
      renderSegs (segsFold ([("a", "x"), ("b", "y")].map (fun kv => (kv.1.data, kv.2.data)))
        [Seg.lit "hi ".data, Seg.hole ['a'], Seg.lit ['!']])
    ∧ (∀ kv ∈ [("a", "x"), ("b", "y")], containsSub (marker kv.1.data)
        (processTemplate (String.mk (renderSegs [Seg.lit "hi ".data, Seg.hole ['a'],
          Seg.lit ['!']])) [("a", "x"), ("b", "y")]).data = false)
    ∧ processTemplate (String.mk (renderSegs [Seg.lit "hi ".data, Seg.hole ['a'], Seg.lit ['!']]))
        ([("a", "x"), ("b", "y")].filter (fun kv => containsSub (marker kv.1.data)
          (renderSegs [Seg.lit "hi ".data, Seg.hole ['a'], Seg.lit ['!']]))) =
      processTemplate (String.mk (renderSegs [Seg.lit "hi ".data, Seg.hole ['a'], Seg.lit ['!']]))
        [("a", "x"), ("b", "y")]
    ∧ (∀ j : List Char, braceFree j = true → j ≠ [] →
        (∀ kv ∈ [("a", "x"), ("b", "y")], kv.1.data ≠ j) →
        containsSub (marker j) (renderSegs [Seg.lit "hi ".data, Seg.hole ['a'], Seg.lit ['!']]) = true →
        containsSub (marker j) (processTemplate (String.mk (renderSegs [Seg.lit "hi ".data,
          Seg.hole ['a'], Seg.lit ['!']])) [("a", "x"), ("b", "y")]).data = true) :=
  C4_amended_fill [Seg.lit "hi ".data, Seg.hole ['a'], Seg.lit ['!']]
    [("a", "x"), ("b", "y")] (by decide) (by decide)

/-! ## The OpenRouter service adapter (`openrouter.ts`)

JS `undefined` values are `none`; JS string truthiness (`""` is falsy) is
`jsTruthyS`; a thrown exception is an `Except.error`.  Each operation takes
the outbound `fetch` as an oracle `net : NetRequest → NetOutcome` and
returns its result together with the list of requests actually issued. -/

inductive LLMProvider
  | GEMINI_3_PRO_IMAGE_PREVIEW
  | GEMINI_3_PRO_PREVIEW
deriving DecidableEq

/-- `PROVIDER_MODEL_MAP` (`openrouter.ts` lines 4-7). -/
def providerModel : LLMProvider → String
  | .GEMINI_3_PRO_IMAGE_PREVIEW => "google/gemini-3-pro-image-preview"
  | .GEMINI_3_PRO_PREVIEW => "google/gemini-3-pro-preview"

/-- `LLMServiceConfig` (`types.ts`); only the fields the adapter reads. -/
structure LLMServiceConfig where
  apiKey : Option String := none
  expandPromptSystem : Option String := none
  expandPromptUserTemplate : Option String := none
  generationPromptTemplate : Option String := none
deriving DecidableEq

/-- The ambient host environment read by credential resolution:
`import.meta.env.VITE_OPENROUTER_API_KEY` and, when `typeof process` is
defined, `process.env.OPENROUTER_API_KEY`. -/
structure HostEnv where
  viteOpenRouterApiKey : Option String
  processDefined : Bool
  processOpenRouterApiKey : Option String
deriving DecidableEq

/-- JS truthiness of a possibly-undefined string (empty string is falsy). -/
def jsTruthyS : Option String → Bool
  | none => false
  | some s => !(s == "")

/-- JS `a || b` on possibly-undefined strings. -/
def jsOrO (a b : Option String) : Option String := if jsTruthyS a then a else b

/-- JS `a || b` where `b` is a present default string. -/
def jsOrS (a : Option String) (dflt : String) : String :=
  if jsTruthyS a then a.getD "" else dflt

/-- The credential chain of `isAvailable`/`getApiKey` (`openrouter.ts`
lines 59-70): explicit config value, else the vite env var, else (when a
`process` global exists) the process env var. -/
def resolveApiKey (cfg : LLMServiceConfig) (env : HostEnv) : Option String :=
  jsOrO cfg.apiKey (jsOrO env.viteOpenRouterApiKey
    (if env.processDefined then env.processOpenRouterApiKey else none))

def isAvailable (cfg : LLMServiceConfig) (env : HostEnv) : Bool :=
  jsTruthyS (resolveApiKey cfg env)

/-- Error taxonomy: a missing credential (`ConfigurationError` in the spec,
message from `getApiKey`) versus a wrapped operational failure. -/
inductive AdapterError
  | configurationError (msg : String)
  | generationError (msg : String)
deriving DecidableEq

def apiKeyErrorMessage : String :=
  "OpenRouter API key not found. Please set VITE_OPENROUTER_API_KEY."

def getApiKey (cfg : LLMServiceConfig) (env : HostEnv) : Except AdapterError String :=
  if jsTruthyS (resolveApiKey cfg env) then .ok ((resolveApiKey cfg env).getD "")
  else .error (.configurationError apiKeyErrorMessage)

/-! ### Default prompt templates (`openrouter.ts` lines 9-44) -/

def DEFAULT_SYSTEM_INSTRUCTION : String :=
  "# Role: E-Commerce Product Photography Expert\n\n## Profile\n- Description: Specialist in creating high-converting product images for online marketplaces (e.g., Amazon, Shopify).\n\n## Mandate\n1. **Platform Compliance**: Images must be high-resolution and professional, suitable for various e-commerce formats (Main Image, Lifestyle, Infographic background).\n2. **Product Hero**: The product MUST be the central focus, clearly visible and occupying the majority of the frame.\n3. **Context Integration**: If additional context is provided, integrate it as a supporting element that enhances the product\x27s appeal without distraction.\n\n## Rules\n1.  **Output ONLY the final prompt text.**\n2.  **Do NOT describe the product visual details** (color, shape) as it comes from the input image.\n3.  **Keywords**: Commercial, High Resolution, Sharp Focus, Depth of Field, Studio Lighting, E-commerce Quality.\n4.  **Composition**: Ensure natural interaction if people are involved, but keep the product as the undisputed subject."

def DEFAULT_USER_TEMPLATE : String :=
  "# Task: Write a Commercial Image Gen Prompt\n\n## Input Data\n- **Target Scene**: \"\x7b\x7bbasePrompt\x7d\x7d\"\n- **Additional Context**: \"\x7b\x7bcustomContext\x7d\x7d\"\n\n## Instructions\nBased on the input, write a detailed, commercial-grade prompt.\n- Ensure the scene highlights the product\x27s value proposition.\n- Emphasize lighting and texture for a premium, trustworthy look.\n- Adapt the style to fit general e-commerce standards (clean, professional)."

def DEFAULT_GENERATION_TEMPLATE : String :=
  "Create a high-end commercial product image for e-commerce.\nReference Image: Use the provided product image as the main subject.\nScene Description: \x7b\x7bprompt\x7d\x7d.\nRequirements:\n- **Focus**: Sharp on the product.\n- **Composition**: Product is the hero, centered and commanding attention.\n- **Lighting**: Professional studio or natural commercial lighting.\nStyle: E-commerce Lifestyle, High Resolution, Photorealistic, Advertisement."

/-! ### Response shape and image extraction -/

/-- `choices[i].message.images[j].image_url?.url`. -/
structure ORImage where
  url : Option String
deriving DecidableEq

/-- One element of `data.choices`: the `message.images` attachment list
(`none` when the field is absent) and the text `message.content`. -/
structure ORChoice where
  images : Option (List ORImage)
  content : Option String
deriving DecidableEq

/-- `data:image/(png|jpeg|jpg|webp);base64,` prefixes stripped by the
anchored regex replace on image payloads. -/
def dataUrlHeads : List String :=
  ["data:image/png;base64,", "data:image/jpeg;base64,",
   "data:image/jpg;base64,", "data:image/webp;base64,"]

def stripDataUrl (s : String) : String :=
  match dataUrlHeads.find? (fun p => isPre p.data s.data) with
  | some p => String.mk (s.data.drop p.data.length)
  | none => s

/-- Lazy capture of `(.*?)` up to the first close paren (JS `.` matches
neither a newline nor a carriage return); returns the capture and the
remainder. -/
def findCloseParen : List Char → Option (List Char × List Char)
  | [] => none
  | c :: rest =>
    if c = ')' then some ([], rest)
    else if c = '\n' then none
    else if c = '\x0d' then none
    else
      match findCloseParen rest with
      | some capR => some (c :: capR.1, capR.2)
      | none => none

/-- Scanning after a literal `![`: the lazy `.*?\](` part of the markdown
image regex `/\!\[.*?\]\((.*?)\)/`, with backtracking to a later `](` when
no close paren follows. -/
def mdAfterBang : List Char → Option (List Char)
  | [] => none
  | ']' :: rest =>
    match rest with
    | '(' :: afterParen =>
      (match findCloseParen afterParen with
       | some capR => some capR.1
       | none => mdAfterBang rest)
    | _ => mdAfterBang rest
  | c :: rest =>
    if c = '\n' then none
    else if c = '\x0d' then none
    else mdAfterBang rest

/-- First (leftmost) match of the markdown image regex; returns capture
group 1 (the parenthesised target). -/
def mdMatchFirst : List Char → Option (List Char)
  | [] => none
  | '!' :: rest =>
    match rest with
    | '[' :: afterBracket =>
      (match mdAfterBang afterBracket with
       | some cap => some cap
       | none => mdMatchFirst rest)
    | _ => mdMatchFirst rest
  | _ :: rest => mdMatchFirst rest

/-- ASCII approximation of the JS `\s` class (the source strings the claims
evaluate are ASCII). -/
def jsSpace (c : Char) : Bool :=
  c = ' ' || c = '\t' || c = '\n' || c = '\x0d' || c = '\x0c' || c = '\x0b'

/-- Case-insensitive literal match, returning the remainder on success. -/
def lowerMatch : List Char → List Char → Option (List Char)
  | [], s => some s
  | _ :: _, [] => none
  | p :: ps, c :: cs => if p.toLower = c.toLower then lowerMatch ps cs else none

/-- Match of `/(https?:\/\/[^\s)]+)/i` anchored at the current position,
returning the matched text (original characters).  When the scheme matches
as `https://` but no body character follows, backtracking the optional `s`
cannot succeed either (the fifth character is `s`, not `:`), so the
position fails. -/
def urlAt (s : List Char) : Option (List Char) :=
  match lowerMatch "https://".data s with
  | some rest =>
    let body := rest.takeWhile (fun c => !jsSpace c && !(c = ')'))
    if body = [] then none else some (s.take 8 ++ body)
  | none =>
    match lowerMatch "http://".data s with
    | some rest =>
      let body := rest.takeWhile (fun c => !jsSpace c && !(c = ')'))
      if body = [] then none else some (s.take 7 ++ body)
    | none => none

/-- Leftmost match of the bare-URL regex. -/
def urlFirst : List Char → Option (List Char)
  | [] => none
  | c :: rest =>
    match urlAt (c :: rest) with
    | some m => some m
    | none => urlFirst rest

/-- The per-choice scan of `generateImage`/`editImage` (`openrouter.ts`
lines 192-220): structured image attachment first, then the markdown image
link or bare URL in the text (accepted only when the match contains
"http"), then a data-URL content. -/
def extractFromChoice (ch : ORChoice) : Option String :=
  let fromImages : Option String :=
    match ch.images with
    | some (img :: _) => if jsTruthyS img.url then img.url else none
    | _ => none
  match fromImages with
  | some u => some u
  | none =>
    match ch.content with
    | none => none
    | some content =>
      if content == "" then none
      else
        let urlMatch : Option (List Char) :=
          match mdMatchFirst content.data with
          | some m => some m
          | none => urlFirst content.data
        match urlMatch with
        | some m =>
          if containsSub "http".data m then some (String.mk m)
          else if isPre "data:image".data content.data then some content else none
        | none =>
          if isPre "data:image".data content.data then some content else none

/-- The loop over `data.choices` with `break` on the first find. -/
def extractImage (choices : List ORChoice) : Option String :=
  choices.findSome? extractFromChoice

def headContent (choices : List ORChoice) : Option String :=
  match choices with
  | [] => none
  | c :: _ => c.content

/-! ### The four operations -/

/-- The outcome of the single `fetch`: a rejected promise / network error,
an HTTP error response (`!response.ok`, carrying `errorData.error?.message`
and `response.statusText`), or a parsed body with its choices. -/
inductive NetOutcome
  | fail (msg : String)
  | httpError (errMsg : Option String) (statusText : String)
  | ok (choices : List ORChoice)

/-- The parts of the outbound request body that the source computes. -/
structure NetRequest where
  model : String
  system : Option String
  userText : String
  imageParts : List String
  modalities : Bool
deriving DecidableEq

def expandRequest (cfg : LLMServiceConfig) (provider : LLMProvider)
    (basePrompt customContext : String) : NetRequest :=
  { model := providerModel provider,
    system := some (jsOrS cfg.expandPromptSystem DEFAULT_SYSTEM_INSTRUCTION),
    userText := processTemplate (jsOrS cfg.expandPromptUserTemplate DEFAULT_USER_TEMPLATE)
      [("basePrompt", basePrompt), ("customContext", customContext)],
    imageParts := [],
    modalities := false }

/-- `OpenRouterService.expandPrompt` (`openrouter.ts` lines 81-127).
`getApiKey` is called before the `try`, so a missing credential raises the
configuration error unwrapped and with no request issued; all later
failures are wrapped as `Failed to expand prompt: ...`. -/
def expandPrompt (cfg : LLMServiceConfig) (env : HostEnv) (provider : LLMProvider)
    (net : NetRequest → NetOutcome) (basePrompt : String) (customContext : String) :
    Except AdapterError String × List NetRequest :=
  match getApiKey cfg env with
  | .error e => (.error e, [])
  | .ok _ =>
    let req := expandRequest cfg provider basePrompt customContext
    match net req with
    | .fail msg => (.error (.generationError ("Failed to expand prompt: " ++ msg)), [req])
    | .httpError errMsg statusText =>
      (.error (.generationError
        ("Failed to expand prompt: OpenRouter API error: " ++ jsOrS errMsg statusText)), [req])
    | .ok choices =>
      (.ok (jsOrS (headContent choices)
        ("A professional product shot in a " ++ basePrompt ++ " setting.")), [req])

def generateRequest (cfg : LLMServiceConfig) (provider : LLMProvider)
    (imageBase64 prompt : String) (options : Option String) : NetRequest :=
  let cleanBase64 := stripDataUrl imageBase64
  let fullPrompt :=
    processTemplate (jsOrS cfg.generationPromptTemplate DEFAULT_GENERATION_TEMPLATE)
      [("prompt", prompt)]
  { model := providerModel provider,
    system := none,
    userText := if jsTruthyS options then fullPrompt ++ "\nStyle/Quality: " ++ options.getD ""
      else fullPrompt,
    imageParts := ["data:image/png;base64," ++ cleanBase64],
    modalities := decide (provider = LLMProvider.GEMINI_3_PRO_IMAGE_PREVIEW) }

/-- `OpenRouterService.generateImage` (`openrouter.ts` lines 129-241).
`options` is `options?.quality`. -/
def generateImage (cfg : LLMServiceConfig) (env : HostEnv) (provider : LLMProvider)
    (net : NetRequest → NetOutcome) (imageBase64 prompt : String) (options : Option String) :
    Except AdapterError String × List NetRequest :=
  match getApiKey cfg env with
  | .error e => (.error e, [])
  | .ok _ =>
    let req := generateRequest cfg provider imageBase64 prompt options
    match net req with
    | .fail msg => (.error (.generationError ("Failed to generate image: " ++ msg)), [req])
    | .httpError errMsg statusText =>
      (.error (.generationError
        ("Failed to generate image: OpenRouter API error: " ++ jsOrS errMsg statusText)), [req])
    | .ok choices =>
      match extractImage choices with
      | some u => (.ok u, [req])
      | none =>
        if jsTruthyS (headContent choices) then
          (.error (.generationError
            "Failed to generate image: The selected model returned text instead of an image."),
           [req])
        else
          (.error (.generationError
            "Failed to generate image: No valid image content returned from OpenRouter API (checked all choices)."),
           [req])

/-! ### recommendScenarios (`openrouter.ts` lines 243-310) -/

/-- Global replace of `/```json\n?|\n?```/` by the empty string: at each
position the engine prefers alternative 1 with greedy `\n?`, then
alternative 2 with greedy `\n?`.  Fuel keeps the recursion structural; the
scan consumes at least one character per step, so the list length
suffices. -/
def stripFencesGo : Nat → List Char → List Char
  | _, [] => []
  | 0, s => s
  | fuel + 1, c :: rest =>
    if isPre ("```json\n".data) (c :: rest) then stripFencesGo fuel ((c :: rest).drop 8)
    else if isPre ("```json".data) (c :: rest) then stripFencesGo fuel ((c :: rest).drop 7)
    else if isPre ("\n```".data) (c :: rest) then stripFencesGo fuel ((c :: rest).drop 4)
    else if isPre ("```".data) (c :: rest) then stripFencesGo fuel ((c :: rest).drop 3)
    else c :: stripFencesGo fuel rest

def stripFences (s : List Char) : List Char := stripFencesGo s.length s

/-- JS `String.prototype.trim` (ASCII whitespace suffices for the inputs
considered here). -/
def jsTrim (s : List Char) : List Char :=
  ((s.dropWhile jsSpace).reverse.dropWhile jsSpace).reverse

/-- JS `indexOf` of a single character (`none` for `-1`). -/
def idxOf (c : Char) (s : List Char) : Option Nat := s.findIdx? (fun d => d = c)

/-- JS `lastIndexOf` of a single character. -/
def lastIdxOf (c : Char) (s : List Char) : Option Nat :=
  match idxOf c s.reverse with
  | some i => some (s.length - 1 - i)
  | none => none

/-- JS `substring(a, b)` (swapping the endpoints when given in reverse
order). -/
def jsSubstring (a b : Nat) (s : List Char) : List Char :=
  (s.take (max a b)).drop (min a b)

/-- The `[...]` slice handed to `JSON.parse`: strip code fences, trim, then
cut from the first `[` to the last `]` (inclusive); `none` when either
bracket is missing. -/
def extractJsonCandidate (content : String) : Option String :=
  let jsonString := jsTrim (stripFences content.data)
  match idxOf '[' jsonString, lastIdxOf ']' jsonString with
  | some a, some b => some (String.mk (jsSubstring a (b + 1) jsonString))
  | _, _ => none

def recommendPrompt : String :=
  "Analyze the product image. Suggest 3 distinct, commercial e-commerce photography scenarios suitable for online marketplaces like Amazon.\n    Focus on environments, lighting, and props that increase conversion rates.\n    Scenarios should be diverse (e.g., studio, lifestyle, creative) but strictly professional.\n    Do NOT use restricted terms like \x27Amazon Choice\x27 or \x27Best Seller\x27.\n    Output format: JSON array of strings.\n    ONLY output the JSON array."

def recommendRequest (imageBase64 : String) : NetRequest :=
  { model := "google/gemini-3-pro-preview",
    system := none,
    userText := recommendPrompt,
    imageParts := ["data:image/png;base64," ++ stripDataUrl imageBase64],
    modalities := false }

/-- The hardcoded fallback list of `recommendScenarios`. -/
def fallbackScenarios : List String :=
  ["A clean studio setting with soft lighting.",
   "A lifestyle setting with natural sunlight.",
   "A professional commercial background."]

def recommendContent (choices : List ORChoice) : String :=
  jsOrS (headContent choices) "[]"

/-- `OpenRouterService.recommendScenarios`.  `JSON.parse` is an external
JS builtin, taken as the oracle `jsonParse` (`none` models a parse
exception, which the `catch` turns into the fallback list).  `getApiKey`
is called before the `try`, so a missing credential still raises. -/
def recommendScenarios (cfg : LLMServiceConfig) (env : HostEnv)
    (net : NetRequest → NetOutcome) (jsonParse : String → Option (List String))
    (imageBase64 : String) : Except AdapterError (List String) × List NetRequest :=
  match getApiKey cfg env with
  | .error e => (.error e, [])
  | .ok _ =>
    let req := recommendRequest imageBase64
    match net req with
    | .fail _ => (.ok fallbackScenarios, [req])
    | .httpError _ _ => (.ok fallbackScenarios, [req])
    | .ok choices =>
      match extractJsonCandidate (recommendContent choices) with
      | some sub =>
        (match jsonParse sub with
         | some arr => (.ok arr, [req])
         | none => (.ok fallbackScenarios, [req]))
      | none => (.ok ([] : List String), [req])

/-! ### editImage (`openrouter.ts` lines 312-414) -/

def editRequest (prompt imageBase64 maskBase64 : String) : NetRequest :=
  { model := "google/gemini-3-pro-image-preview",
    system := none,
    userText := "Perform an inpainting/edit task on the image using the provided mask.\n              The white area in the mask indicates the region to modify.\n              Instruction: " ++ prompt ++ "\n              Return ONLY the resulting image.",
    imageParts := ["data:image/png;base64," ++ stripDataUrl imageBase64,
      "data:image/png;base64," ++ stripDataUrl maskBase64],
    modalities := containsSub "gemini-3-pro-image-preview".data
      "google/gemini-3-pro-image-preview".data }

/-- `OpenRouterService.editImage`: same extraction scan as
`generateImage`; failures wrapped as `Failed to edit image: ...`. -/
def editImage (cfg : LLMServiceConfig) (env : HostEnv)
    (net : NetRequest → NetOutcome) (imageBase64 maskBase64 prompt : String) :
    Except AdapterError String × List NetRequest :=
  match getApiKey cfg env with
  | .error e => (.error e, [])
  | .ok _ =>
    let req := editRequest prompt imageBase64 maskBase64
    match net req with
    | .fail msg => (.error (.generationError ("Failed to edit image: " ++ msg)), [req])
    | .httpError errMsg statusText =>
      (.error (.generationError
        ("Failed to edit image: OpenRouter API error: " ++ jsOrS errMsg statusText)), [req])
    | .ok choices =>
      match extractImage choices with
      | some u => (.ok u, [req])
      | none =>
        (.error (.generationError
          ("Failed to edit image: No image returned for edit request. The model might have output text instead: "
            ++ jsOrS ((headContent choices).map (fun s => String.mk (s.data.take 100)))
              "Empty response")), [req])

/-! ### Adapter claims -/

/-- C5 Availability and configuration errors: `isAvailable` is false
exactly when no credential is truthy among the explicit config value, the
vite environment variable, and (when a process global exists) the process
environment variable; when unavailable, `expandPrompt`, `generateImage`
and `editImage` fail with the configuration error and issue no network
request; when available, none of them ever fails with a configuration
error. -/
theorem C5_availability (cfg : LLMServiceConfig) (env : HostEnv)
    (provider : LLMProvider) (net : NetRequest → NetOutcome)
    (basePrompt customContext imageBase64 maskBase64 prompt : String)
    (options : Option String) :
    (isAvailable cfg env = false ↔
      (jsTruthyS cfg.apiKey = false ∧ jsTruthyS env.viteOpenRouterApiKey = false ∧
        (env.processDefined = true → jsTruthyS env.processOpenRouterApiKey = false)))
    ∧ (isAvailable cfg env = false →
        expandPrompt cfg env provider net basePrompt customContext =
          (.error (.configurationError apiKeyErrorMessage), [])
        ∧ generateImage cfg env provider net imageBase64 prompt options =
          (.error (.configurationError apiKeyErrorMessage), [])
        ∧ editImage cfg env net imageBase64 maskBase64 prompt =
          (.error (.configurationError apiKeyErrorMessage), []))
    ∧ (isAvailable cfg env = true →
        (∀ m, (expandPrompt cfg env provider net basePrompt customContext).1 ≠
          .error (.configurationError m))
        ∧ (∀ m, (generateImage cfg env provider net imageBase64 prompt options).1 ≠
          .error (.configurationError m))
        ∧ (∀ m, (editImage cfg env net imageBase64 maskBase64 prompt).1 ≠
          .error (.configurationError m))) := by
  refine ⟨?_, ?_, ?_⟩
  · unfold isAvailable resolveApiKey jsOrO
    cases h1 : jsTruthyS cfg.apiKey
    · cases h2 : jsTruthyS env.viteOpenRouterApiKey
      · cases hp : env.processDefined
        · simp [h1, h2, hp, jsTruthyS]
        · cases h3 : jsTruthyS env.processOpenRouterApiKey
          · simp [h1, h2, hp, h3]
          · simp [h1, h2, hp, h3]
      · simp [h1, h2]
    · simp [h1]
  · intro hfalse
    have hget : getApiKey cfg env = .error (.configurationError apiKeyErrorMessage) := by
      unfold getApiKey
      unfold isAvailable at hfalse
      rw [hfalse]
      rfl
    refine ⟨?_, ?_, ?_⟩ <;> simp [expandPrompt, generateImage, editImage, hget]
  · intro htrue
    have hget : getApiKey cfg env = .ok ((resolveApiKey cfg env).getD "") := by
      unfold getApiKey
      unfold isAvailable at htrue
      rw [htrue]
      rfl
    refine ⟨?_, ?_, ?_⟩
    · intro m
      simp only [expandPrompt, hget]
      cases hnet : net (expandRequest cfg provider basePrompt customContext) <;> simp
    · intro m
      simp only [generateImage, hget]
      cases hnet : net (generateRequest cfg provider imageBase64 prompt options) with
      | fail msg => simp
      | httpError em st => simp
      | ok choices =>
        cases hext : extractImage choices with
        | some u => simp [hext]
        | none =>
          cases hc : jsTruthyS (headContent choices) <;> simp [hext, hc]
    · intro m
      simp only [editImage, hget]
      cases hnet : net (editRequest prompt imageBase64 maskBase64) with
      | fail msg => simp
      | httpError em st => simp
      | ok choices =>
        cases hext : extractImage choices with
        | some u => simp [hext]
        | none => simp [hext]

/-- Witness for C5: with an empty config and empty environment the
adapter is unavailable and `expandPrompt` fails with the configuration
error, issuing no request. -/
theorem C5_availability_witness :
    expandPrompt ({} : LLMServiceConfig) ⟨none, false, none⟩
      LLMProvider.GEMINI_3_PRO_PREVIEW (fun _ => NetOutcome.fail "down") "b" "c" =
      (.error (.configurationError apiKeyErrorMessage), []) :=
  ((C5_availability ({} : LLMServiceConfig) ⟨none, false, none⟩
    LLMProvider.GEMINI_3_PRO_PREVIEW (fun _ => NetOutcome.fail "down")
    "b" "c" "i" "m" "p" none).2.1 (by decide)).1

/-- C9 Exactly one outbound call per operation: with a configured
credential, each of the four operations issues exactly the one request it
builds, regardless of the outcome of that call (hence no retries). -/
theorem C9_single_call (cfg : LLMServiceConfig) (env : HostEnv)
    (provider : LLMProvider) (net : NetRequest → NetOutcome)
    (jsonParse : String → Option (List String))
    (basePrompt customContext imageBase64 maskBase64 prompt : String)
    (options : Option String)
    (hkey : isAvailable cfg env = true) :
    (expandPrompt cfg env provider net basePrompt customContext).2 =
      [expandRequest cfg provider basePrompt customContext]
    ∧ (generateImage cfg env provider net imageBase64 prompt options).2 =
      [generateRequest cfg provider imageBase64 prompt options]
    ∧ (recommendScenarios cfg env net jsonParse imageBase64).2 =
      [recommendRequest imageBase64]
    ∧ (editImage cfg env net imageBase64 maskBase64 prompt).2 =
      [editRequest prompt imageBase64 maskBase64] := by
  have hget : getApiKey cfg env = .ok ((resolveApiKey cfg env).getD "") := by
    unfold getApiKey
    unfold isAvailable at hkey
    rw [hkey]
    rfl
  refine ⟨?_, ?_, ?_, ?_⟩
  · simp only [expandPrompt, hget]
    cases hnet : net (expandRequest cfg provider basePrompt customContext) <;> simp
  · simp only [generateImage, hget]
    cases hnet : net (generateRequest cfg provider imageBase64 prompt options) with
    | fail msg => simp
    | httpError em st => simp
    | ok choices =>
      cases hext : extractImage choices with
      | some u => simp [hext]
      | none => cases hc : jsTruthyS (headContent choices) <;> simp [hext, hc]
  · simp only [recommendScenarios, hget]
    cases hnet : net (recommendRequest imageBase64) with
    | fail msg => simp
    | httpError em st => simp
    | ok choices =>
      cases hext : extractJsonCandidate (recommendContent choices) with
      | some sub => cases hp : jsonParse sub <;> simp [hext, hp]
      | none => simp [hext]
  · simp only [editImage, hget]
    cases hnet : net (editRequest prompt imageBase64 maskBase64) with
    | fail msg => simp
    | httpError em st => simp
    | ok choices =>
      cases hext : extractImage choices with
      | some u => simp [hext]
      | none => simp [hext]

/-- Witness for C9 at a concrete configured adapter whose single call
fails. -/
theorem C9_single_call_witness :
    (expandPrompt { apiKey := some "sk-test" } ⟨none, false, none⟩
        LLMProvider.GEMINI_3_PRO_PREVIEW (fun _ => NetOutcome.fail "down") "b" "c").2 =
      [expandRequest { apiKey := some "sk-test" } LLMProvider.GEMINI_3_PRO_PREVIEW "b" "c"]
    ∧ (generateImage { apiKey := some "sk-test" } ⟨none, false, none⟩
        LLMProvider.GEMINI_3_PRO_IMAGE_PREVIEW (fun _ => NetOutcome.fail "down") "i" "p" none).2 =
      [generateRequest { apiKey := some "sk-test" } LLMProvider.GEMINI_3_PRO_IMAGE_PREVIEW
        "i" "p" none]
    ∧ (recommendScenarios { apiKey := some "sk-test" } ⟨none, false, none⟩
        (fun _ => NetOutcome.fail "down") (fun _ => none) "i").2 = [recommendRequest "i"]
    ∧ (editImage { apiKey := some "sk-test" } ⟨none, false, none⟩
        (fun _ => NetOutcome.fail "down") "i" "m" "p").2 = [editRequest "p" "i" "m"] := by
  have h := C9_single_call { apiKey := some "sk-test" } ⟨none, false, none⟩
    LLMProvider.GEMINI_3_PRO_PREVIEW (fun _ => NetOutcome.fail "down") (fun _ => none)
    "b" "c" "i" "m" "p" none (by decide)
  have h2 := C9_single_call { apiKey := some "sk-test" } ⟨none, false, none⟩
    LLMProvider.GEMINI_3_PRO_IMAGE_PREVIEW (fun _ => NetOutcome.fail "down") (fun _ => none)
    "b" "c" "i" "m" "p" none (by decide)
  exact ⟨h.1, h2.2.1, h.2.2.1, h.2.2.2⟩

/-- C2 is false as stated: a prose refusal with no `[...]` substring makes
`recommendScenarios` return the empty list, not the fixed 3-item fallback
list. -/
theorem C2_counterexample :
    recommendScenarios { apiKey := some "sk-test" } ⟨none, false, none⟩
      (fun _ => NetOutcome.ok [⟨none, some "I cannot help with that."⟩])
      (fun _ => none) "IMG" =
      (.ok ([] : List String), [recommendRequest "IMG"])
    ∧ ([] : List String) ≠ fallbackScenarios := by
  exact ⟨rfl, by decide⟩

/-- C2 amended: with a configured credential, `recommendScenarios` always
returns (never raises); a failed call or an HTTP error yields the fixed
3-item fallback list; a response whose content has a `[...]` slice that
fails to parse yields the fallback list; a response whose content has no
`[...]` slice yields the empty list. -/
theorem C2_amended_recommend (cfg : LLMServiceConfig) (env : HostEnv)
    (net : NetRequest → NetOutcome) (jsonParse : String → Option (List String))
    (imageBase64 : String)
    (hkey : isAvailable cfg env = true) :
    (∃ r, (recommendScenarios cfg env net jsonParse imageBase64).1 = .ok r)
    ∧ (∀ m, net (recommendRequest imageBase64) = .fail m →
        (recommendScenarios cfg env net jsonParse imageBase64).1 = .ok fallbackScenarios)
    ∧ (∀ em st, net (recommendRequest imageBase64) = .httpError em st →
        (recommendScenarios cfg env net jsonParse imageBase64).1 = .ok fallbackScenarios)
    ∧ (∀ choices sub, net (recommendRequest imageBase64) = .ok choices →
        extractJsonCandidate (recommendContent choices) = some sub →
        jsonParse sub = none →
        (recommendScenarios cfg env net jsonParse imageBase64).1 = .ok fallbackScenarios)
    ∧ (∀ choices, net (recommendRequest imageBase64) = .ok choices →
        extractJsonCandidate (recommendContent choices) = none →
        (recommendScenarios cfg env net jsonParse imageBase64).1 = .ok ([] : List String)) := by
  have hget : getApiKey cfg env = .ok ((resolveApiKey cfg env).getD "") := by
    unfold getApiKey
    unfold isAvailable at hkey
    rw [hkey]
    rfl
  refine ⟨?_, ?_, ?_, ?_, ?_⟩
  · simp only [recommendScenarios, hget]
    cases hnet : net (recommendRequest imageBase64) with
    | fail msg => exact ⟨fallbackScenarios, rfl⟩
    | httpError em st => exact ⟨fallbackScenarios, rfl⟩
    | ok choices =>
      cases hext : extractJsonCandidate (recommendContent choices) with
      | some sub =>
        cases hp : jsonParse sub with
        | some arr => exact ⟨arr, by simp [hext, hp]⟩
        | none => exact ⟨fallbackScenarios, by simp [hext, hp]⟩
      | none => exact ⟨[], by simp [hext]⟩
  · intro m hnet
    simp [recommendScenarios, hget, hnet]
  · intro em st hnet
    simp [recommendScenarios, hget, hnet]
  · intro choices sub hnet hext hp
    simp [recommendScenarios, hget, hnet, hext, hp]
  · intro choices hnet hext
    simp [recommendScenarios, hget, hnet, hext]

/-- Witness for the amended C2 at a concrete parse failure with brackets
present. -/
theorem C2_amended_recommend_witness :
    (recommendScenarios { apiKey := some "sk-test" } ⟨none, false, none⟩
      (fun _ => NetOutcome.ok [⟨none, some "sure: [not json]"⟩])
      (fun _ => none) "IMG").1 = .ok fallbackScenarios :=
  (C2_amended_recommend { apiKey := some "sk-test" } ⟨none, false, none⟩
      (fun _ => NetOutcome.ok [⟨none, some "sure: [not json]"⟩])
      (fun _ => none) "IMG" (by decide)).2.2.2.1
    [⟨none, some "sure: [not json]"⟩] "[not json]" rfl (by decide) rfl

/-- C3 is false as stated: the scan is per choice, so a bare URL fragment
in an earlier choice's text wins over a structured image attachment in a
later choice — `generateImage` returns the unrelated URL fragment, not the
structured image. -/
theorem C3_counterexample :
    (generateImage { apiKey := some "sk-test" } ⟨none, false, none⟩
      LLMProvider.GEMINI_3_PRO_IMAGE_PREVIEW
      (fun _ => NetOutcome.ok
        [⟨none, some "See https://unrelated.example.com for details"⟩,
         ⟨some [⟨some "data:image/png;base64,AAA"⟩], none⟩])
      "IMG" "prompt" none).1 = .ok "https://unrelated.example.com"
    ∧ ("https://unrelated.example.com" : String) ≠ "data:image/png;base64,AAA" := by
  exact ⟨rfl, by decide⟩

theorem findSome?_append_of_none {α β : Type} (f : α → Option β) :
    ∀ (pre rest : List α), (∀ c ∈ pre, f c = none) →
      (pre ++ rest).findSome? f = rest.findSome? f := by
  intro pre
  induction pre with
  | nil => intro rest _; rfl
  | cons c pre' ih =>
    intro rest h
    have hc : f c = none := h c (List.mem_cons_self c pre')
    simp only [List.cons_append, List.findSome?_cons, hc]
    exact ih rest (fun c' h' => h c' (List.mem_cons_of_mem c h'))

/-- C3 amended: the scan walks the choices in order and, within each
choice, checks the structured image attachment before the text content.
If every earlier choice extracts nothing and the Nth choice carries a
structured attachment with a truthy url, `generateImage` returns exactly
that url — regardless of that choice's own text content. -/
theorem C3_amended_extraction (cfg : LLMServiceConfig) (env : HostEnv)
    (provider : LLMProvider) (net : NetRequest → NetOutcome)
    (imageBase64 prompt : String) (options : Option String)
    (pre post : List ORChoice) (ch : ORChoice) (img : ORImage) (imgs : List ORImage) (u : String)
    (hkey : isAvailable cfg env = true)
    (hnet : net (generateRequest cfg provider imageBase64 prompt options) =
      .ok (pre ++ ch :: post))
    (hpre : ∀ c ∈ pre, extractFromChoice c = none)
    (himages : ch.images = some (img :: imgs))
    (hurl : img.url = some u)
    (hu : u ≠ "") :
    (generateImage cfg env provider net imageBase64 prompt options).1 = .ok u := by
  have hget : getApiKey cfg env = .ok ((resolveApiKey cfg env).getD "") := by
    unfold getApiKey
    unfold isAvailable at hkey
    rw [hkey]
    rfl
  have htruthy : jsTruthyS (some u) = true := by
    simp only [jsTruthyS, Bool.not_eq_true']
    exact beq_eq_false_iff_ne.mpr hu
  have hch : extractFromChoice ch = some u := by
    simp [extractFromChoice, himages, hurl, htruthy]
  have hext : extractImage (pre ++ ch :: post) = some u := by
    unfold extractImage
    rw [findSome?_append_of_none extractFromChoice pre (ch :: post) hpre,
      List.findSome?_cons, hch]
  simp [generateImage, hget, hnet, hext]

/-- Witness for the amended C3: the image sits in the second choice's
structured attachment and the first choice's text has no extractable
match. -/
theorem C3_amended_extraction_witness :
    (generateImage { apiKey := some "sk-test" } ⟨none, false, none⟩
      LLMProvider.GEMINI_3_PRO_IMAGE_PREVIEW
      (fun _ => NetOutcome.ok
        [⟨none, some "no image or link in this text."⟩,
         ⟨some [⟨some "data:image/png;base64,AAA"⟩], some "also text"⟩])
      "IMG" "prompt" none).1 = .ok "data:image/png;base64,AAA" :=
  C3_amended_extraction { apiKey := some "sk-test" } ⟨none, false, none⟩
    LLMProvider.GEMINI_3_PRO_IMAGE_PREVIEW
    (fun _ => NetOutcome.ok
      [⟨none, some "no image or link in this text."⟩,
       ⟨some [⟨some "data:image/png;base64,AAA"⟩], some "also text"⟩])
    "IMG" "prompt" none
    [⟨none, some "no image or link in this text."⟩] []
    ⟨some [⟨some "data:image/png;base64,AAA"⟩], some "also text"⟩
    ⟨some "data:image/png;base64,AAA"⟩ [] "data:image/png;base64,AAA"
    (by decide) rfl (by decide) rfl rfl (by decide)

/-! ## The App orchestration loop (`handleGenerate` in the App component)

The oracles of `GenEnv` stand for `removeWhiteBackground`, the
`expandPrompt` and `generateProductScene` convenience wrappers, and the
`Date.now()`/random id sources; the trace records the calls actually made.
Only the final `ProcessingState` of a run is modelled (the transient
EXPANDING_PROMPT/GENERATING_IMAGE messages are overwritten before the run
returns, and the `setTimeout` that later resets COMPLETED to IDLE is a
delayed separate event). -/

/-- `ScenarioPreset` (`types.ts`). -/
structure ScenarioPreset where
  id : String
  name : String
  description : String
  quality : String
  isRecommended : Bool := false
deriving DecidableEq

/-- `GeneratedImage` (`types.ts`). -/
structure GeneratedImage where
  id : String
  url : String
  prompt : String
  vibe : String
  timestamp : Nat
deriving DecidableEq

/-- `ProcessingState.step` values (`types.ts`). -/
inductive Step
  | IDLE
  | EXPANDING_PROMPT
  | GENERATING_IMAGE
  | COMPLETED
  | ERROR
  | ANALYZING_IMAGE
deriving DecidableEq

structure ProcessingState where
  step : Step
  message : String
deriving DecidableEq

inductive CallEv
  | removeBgCall (file : String)
  | expandCall (basePrompt customContext : String)
  | generateCall (image prompt quality : String)
deriving DecidableEq

structure GenEnv where
  removeBgFn : String → Except String String
  expandFn : String → String → Except String String
  generateFn : String → String → String → Except String String
  freshId : Nat → String
  nowAt : Nat → Nat

def errorStateMessage : String :=
  "Something went wrong. Please check your API key and try again."

def completedStateMessage : String := "All scenarios generated successfully!"

/-- Steps 2-4 of the loop body for one resolved preset (`completed` is the
already-incremented counter): expand the description, render the image,
and build the new `GeneratedImage` record.  An `error` carries the calls
made before the exception. -/
def processPreset (env : GenEnv) (image customContext : String) (p : ScenarioPreset)
    (completed : Nat) : Except (List CallEv) (GeneratedImage × List CallEv) :=
  match env.expandFn p.description customContext with
  | .error _ => .error [.expandCall p.description customContext]
  | .ok expandedPrompt =>
    match env.generateFn image expandedPrompt p.quality with
    | .error _ =>
      .error [.expandCall p.description customContext,
        .generateCall image expandedPrompt p.quality]
    | .ok url =>
      .ok ({ id := env.freshId completed, url := url, prompt := expandedPrompt,
             vibe := p.name, timestamp := env.nowAt completed },
        [.expandCall p.description customContext,
          .generateCall image expandedPrompt p.quality])

inductive LoopOut
  | ok (completed : Nat) (images : List GeneratedImage) (trace : List CallEv)
  | err (images : List GeneratedImage) (trace : List CallEv)
deriving DecidableEq

/-- The `for (const presetId of selectedPresetIds)` loop: unknown ids are
skipped silently (`continue`), each new record is prepended to the result
list, and a thrown exception aborts the remaining iterations. -/
def genLoop (env : GenEnv) (image customContext : String)
    (displayPresets : List ScenarioPreset) :
    List String → Nat → List GeneratedImage → List CallEv → LoopOut
  | [], completed, images, trace => .ok completed images trace
  | presetId :: rest, completed, images, trace =>
    match displayPresets.find? (fun p => p.id == presetId) with
    | none => genLoop env image customContext displayPresets rest completed images trace
    | some selectedPreset =>
      match processPreset env image customContext selectedPreset (completed + 1) with
      | .error evs => .err images (trace ++ evs)
      | .ok recEvs =>
        genLoop env image customContext displayPresets rest (completed + 1)
          (recEvs.1 :: images) (trace ++ recEvs.2)

structure GenResult where
  state : ProcessingState
  images : List GeneratedImage
  trace : List CallEv
deriving DecidableEq

/-- `handleGenerate` (the App component): the guard returns unchanged when
no file, no truthy preview, or no selection; optional background removal;
then the sequential loop; COMPLETED on full success, ERROR with the
generic message when anything throws (already-appended records are
kept). -/
def handleGenerate (env : GenEnv) (selectedFile previewUrl : Option String)
    (selectedPresetIds : List String) (displayPresets : List ScenarioPreset)
    (customContext : String) (removeBg : Bool)
    (state0 : ProcessingState) (images0 : List GeneratedImage) : GenResult :=
  if selectedFile.isNone || !jsTruthyS previewUrl || selectedPresetIds.isEmpty then
    ⟨state0, images0, []⟩
  else
    let file := selectedFile.getD ""
    let prepTrace := if removeBg then [CallEv.removeBgCall file] else []
    match (if removeBg then env.removeBgFn file else .ok (previewUrl.getD "")) with
    | .error _ => ⟨⟨.ERROR, errorStateMessage⟩, images0, prepTrace⟩
    | .ok imageToProcess =>
      match genLoop env imageToProcess customContext displayPresets selectedPresetIds 0
          images0 prepTrace with
      | .ok _ images trace => ⟨⟨.COMPLETED, completedStateMessage⟩, images, trace⟩
      | .err images trace => ⟨⟨.ERROR, errorStateMessage⟩, images, trace⟩

/-- The Generate button's `disabled` condition (`factory.ts` App view,
line 544): no truthy preview, empty selection, or a step outside
\x7bIDLE, COMPLETED, ERROR\x7d. -/
def generateDisabled (previewUrl : Option String) (selectedPresetIds : List String)
    (state : ProcessingState) : Bool :=
  !jsTruthyS previewUrl || selectedPresetIds.isEmpty ||
    (!(decide (state.step = Step.IDLE)) && !(decide (state.step = Step.COMPLETED)) &&
      !(decide (state.step = Step.ERROR)))

/-- A click on the Generate button: a disabled button never fires its
`onClick`, so `handleGenerate` runs only when enabled. -/
def clickGenerate (env : GenEnv) (selectedFile previewUrl : Option String)
    (selectedPresetIds : List String) (displayPresets : List ScenarioPreset)
    (customContext : String) (removeBg : Bool)
    (state0 : ProcessingState) (images0 : List GeneratedImage) : GenResult :=
  if generateDisabled previewUrl selectedPresetIds state0 then ⟨state0, images0, []⟩
  else handleGenerate env selectedFile previewUrl selectedPresetIds displayPresets
    customContext removeBg state0 images0

/-- C6 While the step is anything other than IDLE, COMPLETED or ERROR,
invoking generate is a no-op: the state and result list are unchanged and
no calls are made. -/
theorem C6_generation_blocked (env : GenEnv) (selectedFile previewUrl : Option String)
    (selectedPresetIds : List String) (displayPresets : List ScenarioPreset)
    (customContext : String) (removeBg : Bool)
    (state0 : ProcessingState) (images0 : List GeneratedImage)
    (hbusy : state0.step ≠ Step.IDLE ∧ state0.step ≠ Step.COMPLETED ∧
      state0.step ≠ Step.ERROR) :
    clickGenerate env selectedFile previewUrl selectedPresetIds displayPresets
      customContext removeBg state0 images0 = ⟨state0, images0, []⟩ := by
  unfold clickGenerate generateDisabled
  rw [decide_eq_false hbusy.1, decide_eq_false hbusy.2.1, decide_eq_false hbusy.2.2]
  simp

/-- Witness for C6 with a batch mid-flight (GENERATING_IMAGE step). -/
theorem C6_generation_blocked_witness :
    clickGenerate ⟨fun _ => .ok "i", fun b _ => .ok b, fun _ p _ => .ok p,
        fun _ => "id", fun _ => 0⟩
      (some "f") (some "p") ["a"] [] "" false ⟨Step.GENERATING_IMAGE, "busy"⟩ [] =
      ⟨⟨Step.GENERATING_IMAGE, "busy"⟩, [], []⟩ :=
  C6_generation_blocked ⟨fun _ => .ok "i", fun b _ => .ok b, fun _ p _ => .ok p,
      fun _ => "id", fun _ => 0⟩
    (some "f") (some "p") ["a"] [] "" false ⟨Step.GENERATING_IMAGE, "busy"⟩ []
    (by exact ⟨by decide, by decide, by decide⟩)

/-- C1 Batch ordering and traceability: a run over selected presets
`[A, B, C]` that all resolve and succeed ends COMPLETED with the three new
records prepended in order `[C, B, A]` before the previous results; each
record's `vibe` is its preset's name and its `prompt` is exactly the
expanded prompt string passed to the image-generation call (visible as the
`generateCall` argument in the trace). -/
theorem C1_batch_ordering (env : GenEnv) (file preview : String)
    (A B C : ScenarioPreset) (displayPresets : List ScenarioPreset)
    (customContext : String) (removeBg : Bool) (state0 : ProcessingState)
    (images0 : List GeneratedImage) (image eA eB eC uA uB uC : String)
    (hPrev : preview ≠ "")
    (hPrep : (if removeBg then env.removeBgFn file else .ok preview) = .ok image)
    (hFindA : displayPresets.find? (fun p => p.id == A.id) = some A)
    (hFindB : displayPresets.find? (fun p => p.id == B.id) = some B)
    (hFindC : displayPresets.find? (fun p => p.id == C.id) = some C)
    (hExpA : env.expandFn A.description customContext = .ok eA)
    (hGenA : env.generateFn image eA A.quality = .ok uA)
    (hExpB : env.expandFn B.description customContext = .ok eB)
    (hGenB : env.generateFn image eB B.quality = .ok uB)
    (hExpC : env.expandFn C.description customContext = .ok eC)
    (hGenC : env.generateFn image eC C.quality = .ok uC) :
    handleGenerate env (some file) (some preview) [A.id, B.id, C.id] displayPresets
      customContext removeBg state0 images0 =
      ⟨⟨.COMPLETED, completedStateMessage⟩,
       ⟨env.freshId 3, uC, eC, C.name, env.nowAt 3⟩ ::
         ⟨env.freshId 2, uB, eB, B.name, env.nowAt 2⟩ ::
         ⟨env.freshId 1, uA, eA, A.name, env.nowAt 1⟩ :: images0,
       (if removeBg then [CallEv.removeBgCall file] else []) ++
         [.expandCall A.description customContext, .generateCall image eA A.quality,
          .expandCall B.description customContext, .generateCall image eB B.quality,
          .expandCall C.description customContext, .generateCall image eC C.quality]⟩ := by
  have hPrevB : jsTruthyS (some preview) = true := by
    simp only [jsTruthyS, Bool.not_eq_true']
    exact beq_eq_false_iff_ne.mpr hPrev
  unfold handleGenerate
  have hguard : ((some file).isNone || !jsTruthyS (some preview) ||
      ([A.id, B.id, C.id] : List String).isEmpty) = false := by
    simp [hPrevB]
  rw [hguard]
  simp only [Bool.false_eq_true, if_false, Option.getD_some]
  rw [hPrep]
  simp only [genLoop, hFindA, hFindB, hFindC, processPreset, hExpA, hGenA, hExpB, hGenB,
    hExpC, hGenC, List.append_assoc, List.cons_append, List.nil_append]

/-- Witness for C1 at a concrete three-preset batch. -/
theorem C1_batch_ordering_witness :
    handleGenerate
      ⟨fun _ => .ok "img", fun b _ => .ok ("E" ++ b), fun _ p _ => .ok ("U" ++ p),
        fun n => toString n, fun n => n⟩
      (some "f") (some "p")
      [("a" : String), "b", "c"]
      [⟨"a", "NameA", "descA", "qA", false⟩, ⟨"b", "NameB", "descB", "qB", false⟩,
        ⟨"c", "NameC", "descC", "qC", false⟩]
      "ctx" false ⟨Step.IDLE, ""⟩ [] =
      ⟨⟨.COMPLETED, completedStateMessage⟩,
       [⟨"3", "UEdescC", "EdescC", "NameC", 3⟩,
        ⟨"2", "UEdescB", "EdescB", "NameB", 2⟩,
        ⟨"1", "UEdescA", "EdescA", "NameA", 1⟩],
       [.expandCall "descA" "ctx", .generateCall "p" "EdescA" "qA",
        .expandCall "descB" "ctx", .generateCall "p" "EdescB" "qB",
        .expandCall "descC" "ctx", .generateCall "p" "EdescC" "qC"]⟩ :=
  C1_batch_ordering
    ⟨fun _ => .ok "img", fun b _ => .ok ("E" ++ b), fun _ p _ => .ok ("U" ++ p),
      fun n => toString n, fun n => n⟩
    "f" "p"
    ⟨"a", "NameA", "descA", "qA", false⟩ ⟨"b", "NameB", "descB", "qB", false⟩
    ⟨"c", "NameC", "descC", "qC", false⟩
    [⟨"a", "NameA", "descA", "qA", false⟩, ⟨"b", "NameB", "descB", "qB", false⟩,
      ⟨"c", "NameC", "descC", "qC", false⟩]
    "ctx" false ⟨Step.IDLE, ""⟩ [] "p" "EdescA" "EdescB" "EdescC" "UEdescA" "UEdescB" "UEdescC"
    (by decide) rfl rfl rfl rfl rfl rfl rfl rfl rfl rfl

/-- Splitting a loop run at a list append. -/
theorem genLoop_append (env : GenEnv) (image customContext : String)
    (displayPresets : List ScenarioPreset) :
    ∀ (l1 l2 : List String) (completed : Nat) (images : List GeneratedImage)
      (trace : List CallEv),
      genLoop env image customContext displayPresets (l1 ++ l2) completed images trace =
        (match genLoop env image customContext displayPresets l1 completed images trace with
         | .ok c i t => genLoop env image customContext displayPresets l2 c i t
         | .err i t => .err i t) := by
  intro l1
  induction l1 with
  | nil => intro l2 completed images trace; rfl
  | cons pid rest ih =>
    intro l2 completed images trace
    simp only [List.cons_append, genLoop]
    cases hfind : displayPresets.find? (fun p => p.id == pid) with
    | none => exact ih l2 completed images trace
    | some p =>
      show (match processPreset env image customContext p (completed + 1) with
        | Except.error evs => LoopOut.err images (trace ++ evs)
        | Except.ok recEvs => genLoop env image customContext displayPresets (rest ++ l2)
            (completed + 1) (recEvs.1 :: images) (trace ++ recEvs.2)) =
        (match (match processPreset env image customContext p (completed + 1) with
          | Except.error evs => LoopOut.err images (trace ++ evs)
          | Except.ok recEvs => genLoop env image customContext displayPresets rest
              (completed + 1) (recEvs.1 :: images) (trace ++ recEvs.2)) with
         | LoopOut.ok c i t => genLoop env image customContext displayPresets l2 c i t
         | LoopOut.err i t => LoopOut.err i t)
      cases hproc : processPreset env image customContext p (completed + 1) with
      | error evs => rfl
      | ok recEvs => exact ih l2 (completed + 1) (recEvs.1 :: images) (trace ++ recEvs.2)

/-- C7 Mid-batch failure: when the presets before position `i` ran
successfully and preset `i`'s expand or generate call throws, the run ends
in ERROR with the generic message, the records already appended for the
earlier presets are kept unchanged, and no calls are made for any later
preset (the trace ends with the failing preset's calls). -/
theorem C7_batch_abort (env : GenEnv) (file preview : String)
    (ids1 ids2 : List String) (x : String) (P : ScenarioPreset)
    (displayPresets : List ScenarioPreset) (customContext : String) (removeBg : Bool)
    (state0 : ProcessingState) (images0 : List GeneratedImage)
    (image : String) (c : Nat) (imgs : List GeneratedImage) (tr evs : List CallEv)
    (hPrev : preview ≠ "")
    (hPrep : (if removeBg then env.removeBgFn file else .ok preview) = .ok image)
    (hRun : genLoop env image customContext displayPresets ids1 0 images0
      (if removeBg then [CallEv.removeBgCall file] else []) = .ok c imgs tr)
    (hFind : displayPresets.find? (fun p => p.id == x) = some P)
    (hFail : processPreset env image customContext P (c + 1) = .error evs) :
    handleGenerate env (some file) (some preview) (ids1 ++ x :: ids2) displayPresets
      customContext removeBg state0 images0 =
      ⟨⟨.ERROR, errorStateMessage⟩, imgs, tr ++ evs⟩ := by
  have hPrevB : jsTruthyS (some preview) = true := by
    simp only [jsTruthyS, Bool.not_eq_true']
    exact beq_eq_false_iff_ne.mpr hPrev
  have hne : (ids1 ++ x :: ids2).isEmpty = false := by
    cases ids1 <;> rfl
  unfold handleGenerate
  have hguard : ((some file).isNone || !jsTruthyS (some preview) ||
      (ids1 ++ x :: ids2).isEmpty) = false := by
    simp [hPrevB, hne]
  rw [hguard]
  simp only [Bool.false_eq_true, if_false, Option.getD_some]
  rw [hPrep]
  show (match genLoop env image customContext displayPresets (ids1 ++ x :: ids2) 0 images0
      (if removeBg = true then [CallEv.removeBgCall file] else []) with
    | LoopOut.ok _ images trace =>
      ({ state := ⟨Step.COMPLETED, completedStateMessage⟩, images := images,
         trace := trace } : GenResult)
    | LoopOut.err images trace =>
      { state := ⟨Step.ERROR, errorStateMessage⟩, images := images, trace := trace }) = _
  rw [genLoop_append env image customContext displayPresets ids1 (x :: ids2) 0 images0
    (if removeBg then [CallEv.removeBgCall file] else []), hRun]
  simp only [genLoop, hFind, hFail]

/-- Witness for C7: the second of three presets fails its expand call; the
first preset's record is kept and the third is never processed. -/
theorem C7_batch_abort_witness :
    handleGenerate
      ⟨fun _ => .ok "img",
        fun b _ => if b == "descB" then .error "boom" else .ok ("E" ++ b),
        fun _ p _ => .ok ("U" ++ p), fun n => toString n, fun n => n⟩
      (some "f") (some "p") (["a"] ++ "b" :: ["c"])
      [⟨"a", "NameA", "descA", "qA", false⟩, ⟨"b", "NameB", "descB", "qB", false⟩,
        ⟨"c", "NameC", "descC", "qC", false⟩]
      "ctx" false ⟨Step.IDLE, ""⟩ [] =
      ⟨⟨.ERROR, errorStateMessage⟩,
       [⟨"1", "UEdescA", "EdescA", "NameA", 1⟩],
       [.expandCall "descA" "ctx", .generateCall "p" "EdescA" "qA"] ++
         [.expandCall "descB" "ctx"]⟩ :=
  C7_batch_abort
    ⟨fun _ => .ok "img",
      fun b _ => if b == "descB" then .error "boom" else .ok ("E" ++ b),
      fun _ p _ => .ok ("U" ++ p), fun n => toString n, fun n => n⟩
    "f" "p" ["a"] ["c"] "b" ⟨"b", "NameB", "descB", "qB", false⟩
    [⟨"a", "NameA", "descA", "qA", false⟩, ⟨"b", "NameB", "descB", "qB", false⟩,
      ⟨"c", "NameC", "descC", "qC", false⟩]
    "ctx" false ⟨Step.IDLE, ""⟩ [] "p" 1 [⟨"1", "UEdescA", "EdescA", "NameA", 1⟩]
    [.expandCall "descA" "ctx", .generateCall "p" "EdescA" "qA"] [.expandCall "descB" "ctx"]
    (by decide) rfl rfl rfl rfl

/-! ## The service factory (`factory.ts` lines 9-38)

`LLMServiceFactory` holds a config and a `Map` from provider to the
adapter instance constructed for it; `registerConfig` stores a new config
and clears the map; `getService` returns the cached instance or constructs
`new OpenRouterService(this.config, provider)` and caches it. -/

/-- An `OpenRouterService` instance is determined by the config and
provider passed to its constructor. -/
structure OpenRouterService where
  config : LLMServiceConfig
  provider : LLMProvider
deriving DecidableEq

structure FactoryState where
  config : LLMServiceConfig
  instances : List (LLMProvider × OpenRouterService)
deriving DecidableEq

/-- `LLMServiceFactory.registerConfig`. -/
def registerConfig (config : LLMServiceConfig) (_ : FactoryState) : FactoryState :=
  ⟨config, []⟩

/-- `Map.get` on the instance map. -/
def lookupInstance (provider : LLMProvider) :
    List (LLMProvider × OpenRouterService) → Option OpenRouterService
  | [] => none
  | kv :: rest => if kv.1 = provider then some kv.2 else lookupInstance provider rest

/-- `LLMServiceFactory.getService`: returns the instance and the updated
factory state. -/
def getService (provider : LLMProvider) (s : FactoryState) :
    OpenRouterService × FactoryState :=
  match lookupInstance provider s.instances with
  | some svc => (svc, s)
  | none =>
    (⟨s.config, provider⟩, ⟨s.config, (provider, ⟨s.config, provider⟩) :: s.instances⟩)

/-- Every cached instance was constructed with the currently registered
config. -/
def cacheConsistent (s : FactoryState) : Prop :=
  ∀ kv ∈ s.instances, kv.2.config = s.config

/-- C10 Factory cache invariant: repeated `getService` for the same
provider with no intervening `registerConfig` returns the identical
instance; `registerConfig` stores the config and clears the whole cache,
so the next `getService` for any provider constructs a fresh adapter
carrying the new config; and both operations preserve the invariant that
every cached instance was built with the current config. -/
theorem C10_factory_cache (s : FactoryState) (p : LLMProvider) (c : LLMServiceConfig) :
    (getService p ((getService p s).2)).1 = (getService p s).1
    ∧ registerConfig c s = ⟨c, []⟩
    ∧ (getService p (registerConfig c s)).1 = ⟨c, p⟩
    ∧ (cacheConsistent s → cacheConsistent ((getService p s).2))
    ∧ cacheConsistent (registerConfig c s) := by
  refine ⟨?_, rfl, ?_, ?_, ?_⟩
  · cases hl : lookupInstance p s.instances with
    | some svc => simp [getService, hl]
    | none =>
      simp only [getService, hl]
      have : lookupInstance p ((p, (⟨s.config, p⟩ : OpenRouterService)) :: s.instances) =
          some ⟨s.config, p⟩ := by
        simp [lookupInstance]
      simp [this]
  · simp [getService, registerConfig, lookupInstance]
  · intro hcons
    cases hl : lookupInstance p s.instances with
    | some svc => simpa [getService, hl] using hcons
    | none =>
      simp only [getService, hl]
      intro kv hkv
      rcases List.mem_cons.mp hkv with h | h
      · subst h; rfl
      · exact hcons kv h
  · intro kv hkv
    exact absurd hkv (List.not_mem_nil kv)

/-- Witness for C10 starting from the initial factory state (empty config,
empty cache). -/
theorem C10_factory_cache_witness :
    (getService LLMProvider.GEMINI_3_PRO_IMAGE_PREVIEW
        ((getService LLMProvider.GEMINI_3_PRO_IMAGE_PREVIEW ⟨{}, []⟩).2)).1 =
      (getService LLMProvider.GEMINI_3_PRO_IMAGE_PREVIEW ⟨{}, []⟩).1
    ∧ (getService LLMProvider.GEMINI_3_PRO_PREVIEW
        (registerConfig { apiKey := some "k" } ⟨{}, []⟩)).1 =
      ⟨{ apiKey := some "k" }, LLMProvider.GEMINI_3_PRO_PREVIEW⟩
    ∧ cacheConsistent ((getService LLMProvider.GEMINI_3_PRO_IMAGE_PREVIEW ⟨{}, []⟩).2) := by
  have h1 := C10_factory_cache ⟨{}, []⟩ LLMProvider.GEMINI_3_PRO_IMAGE_PREVIEW
    { apiKey := some "k" }
  have h2 := C10_factory_cache ⟨{}, []⟩ LLMProvider.GEMINI_3_PRO_PREVIEW
    { apiKey := some "k" }
  exact ⟨h1.1, h2.2.2.1, h1.2.2.2.1 (fun kv hkv => absurd hkv (List.not_mem_nil kv))⟩

end AmzGen
